import Mathlib

/-!
Shallow embedding of the `riscv-emulator` repository (RV32I user-mode
emulator core written in Rust) together with proofs about the claims of
its specification.

Conventions of the embedding:
* Rust `u32` values are represented as `Nat` bit patterns (`< 2^32`);
  `i32` values are represented as `Int` in `[-2^31, 2^31)`.
* A Rust function that can panic (`todo!()`, `unwrap()` on `None`,
  out-of-bounds indexing, remainder by zero) is modelled as returning
  `Option α`, where `none` models the panic.  A Rust `Option<T>` inside
  such a function becomes a nested inner `Option`.
* Arrays and vectors are Lean `List`s.
-/

namespace RiscvEmu

/-! ### Host-language (Rust) integer semantics -/

/-- Reinterpret a `u32` bit pattern as an `i32` value (Rust `as i32`). -/
def u32_as_i32 (n : Nat) : Int :=
  if n < 2 ^ 31 then (n : Int) else (n : Int) - 2 ^ 32

/-- Reinterpret an `i32` value as a `u32` bit pattern (Rust `as u32`). -/
def i32_as_u32 (i : Int) : Nat :=
  (i % 2 ^ 32).toNat

/-- Truncate an unbounded integer to the `i32` range, keeping the low 32
bits of its two's-complement representation (the effect of Rust's
`wrapping_*` arithmetic). -/
def i32_wrap (i : Int) : Int :=
  u32_as_i32 (i32_as_u32 i)

/-- Rust `i32::wrapping_add`. -/
def wrapping_add32 (a b : Int) : Int := i32_wrap (a + b)

/-- Rust `i32::wrapping_sub`. -/
def wrapping_sub32 (a b : Int) : Int := i32_wrap (a - b)

/-- Arithmetic right shift of an `i32` value (Rust `>>` on `i32`):
floor division by a power of two. -/
def asr32 (a : Int) (s : Nat) : Int := Int.fdiv a (2 ^ s)

/-- Rust `&` on `i32`: bitwise and of the 32-bit two's-complement
patterns. -/
def i32_and (a b : Int) : Int :=
  u32_as_i32 (i32_as_u32 a &&& i32_as_u32 b)

/-- Rust `|` on `i32`: bitwise or of the 32-bit two's-complement
patterns. -/
def i32_or (a b : Int) : Int :=
  u32_as_i32 (i32_as_u32 a ||| i32_as_u32 b)

/-- Rust `^` on `i32`: bitwise xor of the 32-bit two's-complement
patterns. -/
def i32_xor (a b : Int) : Int :=
  u32_as_i32 (i32_as_u32 a ^^^ i32_as_u32 b)

/-- Rust `i32::wrapping_shl`: the shift amount is reduced mod 32, the
32-bit pattern is shifted left discarding overflowing bits. -/
def wrapping_shl32 (a : Int) (s : Nat) : Int :=
  u32_as_i32 ((i32_as_u32 a <<< (s % 32)) % 2 ^ 32)

/-- Rust `i32::wrapping_shr`: the shift amount is reduced mod 32, the
shift is arithmetic (sign-filling) because the receiver is signed. -/
def wrapping_shr32 (a : Int) (s : Nat) : Int :=
  asr32 a (s % 32)

/-- Rust `u32::wrapping_shr`: the shift amount is reduced mod 32, the
shift is logical (zero-filling); operates on a `u32` pattern. -/
def u32_wrapping_shr (a : Nat) (s : Nat) : Nat :=
  a >>> (s % 32)

/-! ### `register.rs` -/

/-- Access level of a register (`register.rs`). -/
inductive AccessLevel where
  | Read
  | ReadWrite
deriving DecidableEq, Repr

/-- A group of registers (`Registers<T, U>` with `T = u32`), values kept
as bit patterns.  The two lists always have the same length in every
state reachable through the API. -/
structure Registers where
  access_levels : List AccessLevel
  values : List Nat
deriving DecidableEq, Repr

/-- Constructor `Registers::new` for `U` registers: every access level is
`Read`, every value is the default 0. -/
def Registers.new (U : Nat) : Registers :=
  { access_levels := List.replicate U AccessLevel.Read,
    values := List.replicate U 0 }

/-- Method `Registers::read`; `none` models the index-out-of-bounds
panic. -/
def Registers.read (r : Registers) (index : Nat) : Option Nat :=
  r.values.get? index

/-- Method `Registers::is_read_only`; `none` models the
index-out-of-bounds panic. -/
def Registers.is_read_only (r : Registers) (index : Nat) : Option Bool :=
  (r.access_levels.get? index).map (fun l => l = AccessLevel.Read)

/-- Method `Registers::write`: stores the value only when the register is
not read-only; `none` models the index-out-of-bounds panic. -/
def Registers.write (r : Registers) (index : Nat) (value : Nat) :
    Option Registers :=
  (r.is_read_only index).map (fun ro =>
    if ro then r else { r with values := r.values.set index value })

/-- Method `Registers::reset`: all values back to the default 0, access
levels untouched. -/
def Registers.reset (r : Registers) : Registers :=
  { r with values := List.replicate r.values.length 0 }

/-- Method `Registers::len`. -/
def Registers.len (r : Registers) : Nat :=
  r.values.length

/-- Method `Registers::set_access_level`; `none` models the
index-out-of-bounds panic. -/
def Registers.set_access_level (r : Registers) (index : Nat)
    (access_level : AccessLevel) : Option Registers :=
  if index < r.access_levels.length then
    some { r with access_levels := r.access_levels.set index access_level }
  else
    none

/-! ### `processor.rs`: construction -/

/-- Processor state (`processor.rs`): the ALU is stateless, so only the
program counter (a `u32` pattern) and the `x` register file remain. -/
structure Processor where
  pc : Nat
  reg_x : Registers
deriving DecidableEq, Repr

/-- Constructor `Processor::new`: starts from `Registers::new` and marks
the indices produced by the Rust range `1 .. reg_x.len() - 1` (that is,
`1` up to `reg_x.len() - 2`) as `ReadWrite`; `pc` starts at 0.  The
result is an `Option` because `set_access_level` is panic-modelled (no
panic actually occurs: every visited index is in bounds). -/
def Processor.new : Option Processor :=
  let reg0 := Registers.new 32
  ((List.range' 1 (reg0.len - 1 - 1)).foldlM
    (fun (r : Registers) i => r.set_access_level i AccessLevel.ReadWrite)
    reg0).map
    (fun reg_x => { pc := 0, reg_x := reg_x })

/-! ### Register-file operation sequences (spec §4.4 invariant) -/

/-- One exposed mutating register-file operation, as enumerated by the
claim: `write`, `reset`, or `set_access_level`. -/
inductive RegOp where
  | write (index : Nat) (value : Nat)
  | reset
  | setAccessLevel (index : Nat) (level : AccessLevel)
deriving DecidableEq, Repr

/-- Apply one register-file operation (panic-modelled). -/
def RegOp.apply (r : Registers) : RegOp → Option Registers
  | RegOp.write i v => Registers.write r i v
  | RegOp.reset => some (Registers.reset r)
  | RegOp.setAccessLevel i l => Registers.set_access_level r i l

/-- Apply a sequence of register-file operations left to right; `none` as
soon as one of them panics. -/
def applyRegOps (r : Registers) (ops : List RegOp) : Option Registers :=
  ops.foldlM RegOp.apply r

/-! ### `memory.rs` -/

/-- Byte-addressable memory (`memory.rs`), bytes as `Nat` patterns. -/
structure Memory where
  data : List Nat
deriving DecidableEq, Repr

/-- Constructor `Memory::new`: `size` zero bytes. -/
def Memory.new (size : Nat) : Memory :=
  { data := List.replicate size 0 }

/-- Method `Memory::len`. -/
def Memory.len (m : Memory) : Nat :=
  m.data.length

/-- Method `Memory::wrap_addr`: `addr % self.data.len()`; `none` models
the Rust panic "attempt to calculate the remainder with a divisor of
zero" when the memory is empty. -/
def Memory.wrap_addr (m : Memory) (addr : Nat) : Option Nat :=
  if m.data.length = 0 then none else some (addr % m.data.length)

/-- Method `Memory::read`: reads `len` consecutive logical bytes starting
at `base_addr`, wrapping around; `none` models a panic (possible only
through `wrap_addr` on empty memory). -/
def Memory.read (m : Memory) (base_addr len : Nat) : Option (List Nat) :=
  (List.range len).mapM (fun i =>
    (m.wrap_addr (base_addr + i)).bind (fun index => m.data.get? index))

/-- Method `Memory::write`: stores the bytes of `value` consecutively
starting at logical `base_addr`, wrapping around; `none` models a panic
(possible only through `wrap_addr` on empty memory). -/
def Memory.write (m : Memory) (base_addr : Nat) (value : List Nat) :
    Option Memory :=
  match value with
  | [] => some m
  | v :: rest =>
    (m.wrap_addr base_addr).bind (fun index =>
      Memory.write { data := m.data.set index v } (base_addr + 1) rest)

/-! ### `instruction.rs` -/

/-- RISC-V instruction formats (`instruction.rs`). -/
inductive InstructionFormat where
  | B
  | I
  | J
  | R
  | S
  | U
deriving DecidableEq, Repr

/-- Method `Instruction::opcode`: the low 7 bits of the word. -/
def Instruction.opcode (instr : Nat) : Nat :=
  instr &&& 0x7f

/-- Method `Instruction::format`; `none` models the
`todo!("Invalid instruction format handler not yet implemented")` panic
for an opcode outside the map. -/
def Instruction.format (instr : Nat) : Option InstructionFormat :=
  match Instruction.opcode instr with
  | 0x03 | 0x0f | 0x13 | 0x17 | 0x67 | 0x73 => some InstructionFormat.I
  | 0x23 => some InstructionFormat.S
  | 0x33 => some InstructionFormat.R
  | 0x37 => some InstructionFormat.U
  | 0x63 => some InstructionFormat.B
  | 0x6f => some InstructionFormat.J
  | _ => none

/-- Method `Instruction::rd`: outer `Option` models the panic inside
`format`, the inner one is the Rust `Option<usize>`. -/
def Instruction.rd (instr : Nat) : Option (Option Nat) :=
  (Instruction.format instr).map (fun f =>
    match f with
    | InstructionFormat.I | InstructionFormat.J
    | InstructionFormat.R | InstructionFormat.U =>
      some (instr >>> 7 &&& 0x1f)
    | _ => none)

/-- Method `Instruction::funct3` (same `Option` layering as `rd`). -/
def Instruction.funct3 (instr : Nat) : Option (Option Nat) :=
  (Instruction.format instr).map (fun f =>
    match f with
    | InstructionFormat.B | InstructionFormat.I
    | InstructionFormat.R | InstructionFormat.S =>
      some (instr >>> 12 &&& 0x07)
    | _ => none)

/-- Method `Instruction::funct7` (same `Option` layering as `rd`). -/
def Instruction.funct7 (instr : Nat) : Option (Option Nat) :=
  (Instruction.format instr).map (fun f =>
    match f with
    | InstructionFormat.R => some (instr >>> 25 &&& 0x7f)
    | _ => none)

/-- Method `Instruction::rs1` (same `Option` layering as `rd`). -/
def Instruction.rs1 (instr : Nat) : Option (Option Nat) :=
  (Instruction.format instr).map (fun f =>
    match f with
    | InstructionFormat.B | InstructionFormat.I
    | InstructionFormat.R | InstructionFormat.S =>
      some (instr >>> 15 &&& 0x1f)
    | _ => none)

/-- Method `Instruction::rs2` (same `Option` layering as `rd`). -/
def Instruction.rs2 (instr : Nat) : Option (Option Nat) :=
  (Instruction.format instr).map (fun f =>
    match f with
    | InstructionFormat.B | InstructionFormat.R | InstructionFormat.S =>
      some (instr >>> 20 &&& 0x1f)
    | _ => none)

/-- Function `Instruction::sign_ext`: left-shift the carrier into the top
of a `u32`, reinterpret as `i32`, arithmetic-right-shift back. -/
def Instruction.sign_ext (value : Nat) (field_size : Nat) : Int :=
  asr32 (u32_as_i32 ((value <<< (32 - field_size)) % 2 ^ 32))
    (32 - field_size)

/-- Method `Instruction::imm_b`: the B-format immediate carrier passed to
`sign_ext` with `field_size` 12 (as in the source). -/
def Instruction.imm_b (instr : Nat) : Int :=
  Instruction.sign_ext
    ((instr >>> 8 &&& 0x0f) <<< 1
      ||| (instr >>> 25 &&& 0x3f) <<< 5
      ||| (instr >>> 7 &&& 0x01) <<< 11
      ||| (instr >>> 31 &&& 0x01) <<< 12)
    12

/-- Method `Instruction::imm_i`. -/
def Instruction.imm_i (instr : Nat) : Int :=
  Instruction.sign_ext (instr >>> 20 &&& 0xfff) 12

/-- Method `Instruction::imm_j`: the J-format immediate carrier passed to
`sign_ext` with `field_size` 20 (as in the source). -/
def Instruction.imm_j (instr : Nat) : Int :=
  Instruction.sign_ext
    ((instr >>> 21 &&& 0x3ff) <<< 1
      ||| (instr >>> 20 &&& 0x01) <<< 11
      ||| (instr >>> 12 &&& 0xff) <<< 12
      ||| (instr >>> 31 &&& 0x01) <<< 20)
    20

/-- Method `Instruction::imm_s`. -/
def Instruction.imm_s (instr : Nat) : Int :=
  Instruction.sign_ext
    ((instr >>> 7 &&& 0x1f) ||| (instr >>> 25 &&& 0x7f) <<< 5)
    12

/-- Method `Instruction::imm_u`. -/
def Instruction.imm_u (instr : Nat) : Int :=
  Instruction.sign_ext (instr >>> 12 &&& 0xfffff) 20

/-- Method `Instruction::imm` (same `Option` layering as `rd`). -/
def Instruction.imm (instr : Nat) : Option (Option Int) :=
  (Instruction.format instr).map (fun f =>
    match f with
    | InstructionFormat.B => some (Instruction.imm_b instr)
    | InstructionFormat.I => some (Instruction.imm_i instr)
    | InstructionFormat.J => some (Instruction.imm_j instr)
    | InstructionFormat.S => some (Instruction.imm_s instr)
    | InstructionFormat.U => some (Instruction.imm_u instr)
    | _ => none)

/-- Collapse the two `Option` layers the way Rust `unwrap()` does: the
result is `none` when the call panicked or when `unwrap` was applied to
`None` (also a panic). -/
def unwrapped : Option (Option α) → Option α :=
  fun x => x.bind id

/-! ### `op.rs` -/

/-- The operation tags of `op.rs` (the commented-out CSR and system tags
are absent there as well). -/
inductive Op where
  | AddUpperImmediateProgramCounter
  | ArithmeticAdd
  | ArithmeticAddImmediate
  | ArithmeticSub
  | BranchEqual
  | BranchGreaterThanOrEqualTo
  | BranchGreaterThanOrEqualToUnsigned
  | BranchLessThan
  | BranchLessThanUnsigned
  | BranchNotEqual
  | Fence
  | FenceI
  | JumpAndLink
  | JumpAndLinkRegister
  | LoadByte
  | LoadByteUnsigned
  | LoadHalf
  | LoadHalfUnsigned
  | LoadUpperImmediate
  | LoadWord
  | LogicalAnd
  | LogicalAndImmediate
  | LogicalExclusiveOr
  | LogicalExclusiveOrImmediate
  | LogicalOr
  | LogicalOrImmediate
  | SetLessThan
  | SetLessThanImmediate
  | SetLessThanImmediateUnsigned
  | SetLessThanUnsigned
  | ShiftLeftLogical
  | ShiftLeftLogicalImmediate
  | ShiftRightArithmetic
  | ShiftRightArithmeticImmediate
  | ShiftRightLogical
  | ShiftRightLogicalImmediate
  | StoreByte
  | StoreHalf
  | StoreWord
deriving DecidableEq, Repr

/-- The `Display` implementation for `Op`: the mnemonic table. -/
def Op.displayString : Op → String
  | Op.AddUpperImmediateProgramCounter => "auipc"
  | Op.ArithmeticAdd => "add"
  | Op.ArithmeticAddImmediate => "addi"
  | Op.ArithmeticSub => "sub"
  | Op.BranchEqual => "beq"
  | Op.BranchGreaterThanOrEqualTo => "bge"
  | Op.BranchGreaterThanOrEqualToUnsigned => "bgeu"
  | Op.BranchLessThan => "blt"
  | Op.BranchLessThanUnsigned => "bltu"
  | Op.BranchNotEqual => "bne"
  | Op.Fence => "fence"
  | Op.FenceI => "fence.i"
  | Op.JumpAndLink => "jal"
  | Op.JumpAndLinkRegister => "jalr"
  | Op.LoadByte => "lb"
  | Op.LoadByteUnsigned => "lbu"
  | Op.LoadHalf => "lh"
  | Op.LoadHalfUnsigned => "lhu"
  | Op.LoadUpperImmediate => "lui"
  | Op.LoadWord => "lw"
  | Op.LogicalAnd => "and"
  | Op.LogicalAndImmediate => "andi"
  | Op.LogicalExclusiveOr => "xor"
  | Op.LogicalExclusiveOrImmediate => "xori"
  | Op.LogicalOr => "or"
  | Op.LogicalOrImmediate => "ori"
  | Op.SetLessThan => "slt"
  | Op.SetLessThanImmediate => "slti"
  | Op.SetLessThanImmediateUnsigned => "sltiu"
  | Op.SetLessThanUnsigned => "sltu"
  | Op.ShiftLeftLogical => "sll"
  | Op.ShiftLeftLogicalImmediate => "slli"
  | Op.ShiftRightArithmetic => "sra"
  | Op.ShiftRightArithmeticImmediate => "srai"
  | Op.ShiftRightLogical => "srl"
  | Op.ShiftRightLogicalImmediate => "srli"
  | Op.StoreByte => "sb"
  | Op.StoreHalf => "sh"
  | Op.StoreWord => "sw"

/-! ### `decode.rs` -/

/-- Function `Decoder::decode_instr_b`.  Outer `Option` models a panic,
the inner one is the Rust return value (`None` = illegal instruction;
the `?` on `funct3()` also produces the inner `none`). -/
def Decoder.decode_instr_b (instr : Nat) : Option (Option Op) :=
  (Instruction.funct3 instr).map (fun f3? =>
    match f3? with
    | none => none
    | some f3 =>
      match Instruction.opcode instr, f3 with
      | 0x63, 0x00 => some Op.BranchEqual
      | 0x63, 0x01 => some Op.BranchNotEqual
      | 0x63, 0x04 => some Op.BranchLessThan
      | 0x63, 0x05 => some Op.BranchGreaterThanOrEqualTo
      | 0x63, 0x06 => some Op.BranchLessThanUnsigned
      | 0x63, 0x07 => some Op.BranchGreaterThanOrEqualToUnsigned
      | _, _ => none)

/-- Function `Decoder::decode_instr_i`; the third discriminant is the
Rust expression `instr.imm()? >> 0x05 & 0x7f` on `i32`. -/
def Decoder.decode_instr_i (instr : Nat) : Option (Option Op) :=
  (Instruction.funct3 instr).bind (fun f3? =>
    (Instruction.imm instr).map (fun imm? =>
      match f3?, imm? with
      | some f3, some imm =>
        let disc : Int := i32_and (asr32 imm 5) 0x7f
        match Instruction.opcode instr, f3 with
        | 0x03, 0x00 => some Op.LoadByte
        | 0x03, 0x01 => some Op.LoadHalf
        | 0x03, 0x02 => some Op.LoadWord
        | 0x03, 0x04 => some Op.LoadByteUnsigned
        | 0x03, 0x05 => some Op.LoadHalfUnsigned
        | 0x0f, 0x00 => some Op.Fence
        | 0x0f, 0x01 => some Op.FenceI
        | 0x13, 0x00 => some Op.ArithmeticAddImmediate
        | 0x13, 0x01 => some Op.ShiftLeftLogicalImmediate
        | 0x13, 0x02 => some Op.SetLessThanImmediate
        | 0x13, 0x03 => some Op.SetLessThanImmediateUnsigned
        | 0x13, 0x04 => some Op.LogicalExclusiveOrImmediate
        | 0x13, 0x05 =>
          if disc = 0x00 then some Op.ShiftRightLogicalImmediate
          else if disc = 0x20 then some Op.ShiftRightArithmeticImmediate
          else none
        | 0x13, 0x06 => some Op.LogicalOrImmediate
        | 0x13, 0x07 => some Op.LogicalAndImmediate
        | 0x67, 0x00 => some Op.JumpAndLinkRegister
        | _, _ => none
      | _, _ => none))

/-- Function `Decoder::decode_instr_j`. -/
def Decoder.decode_instr_j (instr : Nat) : Option (Option Op) :=
  some (match Instruction.opcode instr with
    | 0x6f => some Op.JumpAndLink
    | _ => none)

/-- Function `Decoder::decode_instr_r`. -/
def Decoder.decode_instr_r (instr : Nat) : Option (Option Op) :=
  (Instruction.funct3 instr).bind (fun f3? =>
    (Instruction.funct7 instr).map (fun f7? =>
      match f3?, f7? with
      | some f3, some f7 =>
        match Instruction.opcode instr, f3, f7 with
        | 0x33, 0x00, 0x00 => some Op.ArithmeticAdd
        | 0x33, 0x00, 0x20 => some Op.ArithmeticSub
        | 0x33, 0x01, _ => some Op.ShiftLeftLogical
        | 0x33, 0x02, _ => some Op.SetLessThan
        | 0x33, 0x03, _ => some Op.SetLessThanUnsigned
        | 0x33, 0x04, _ => some Op.LogicalExclusiveOr
        | 0x33, 0x05, 0x00 => some Op.ShiftRightLogical
        | 0x33, 0x05, 0x20 => some Op.ShiftRightArithmetic
        | 0x33, 0x06, _ => some Op.LogicalOr
        | 0x33, 0x07, _ => some Op.LogicalAnd
        | _, _, _ => none
      | _, _ => none))

/-- Function `Decoder::decode_instr_s`. -/
def Decoder.decode_instr_s (instr : Nat) : Option (Option Op) :=
  (Instruction.funct3 instr).map (fun f3? =>
    match f3? with
    | none => none
    | some f3 =>
      match Instruction.opcode instr, f3 with
      | 0x23, 0x00 => some Op.StoreByte
      | 0x23, 0x01 => some Op.StoreHalf
      | 0x23, 0x02 => some Op.StoreWord
      | _, _ => none)

/-- Function `Decoder::decode_instr_u`. -/
def Decoder.decode_instr_u (instr : Nat) : Option (Option Op) :=
  some (match Instruction.opcode instr with
    | 0x37 => some Op.LoadUpperImmediate
    | _ => none)

/-- Function `Decoder::decode`: dispatch on the instruction format.  The
outer `Option` is `none` exactly when the Rust code panics (which happens
inside `Instruction::format` for an opcode outside the map); the inner
`Option` is the Rust return value. -/
def Decoder.decode (instr : Nat) : Option (Option Op) :=
  (Instruction.format instr).bind (fun f =>
    match f with
    | InstructionFormat.B => Decoder.decode_instr_b instr
    | InstructionFormat.I => Decoder.decode_instr_i instr
    | InstructionFormat.J => Decoder.decode_instr_j instr
    | InstructionFormat.R => Decoder.decode_instr_r instr
    | InstructionFormat.S => Decoder.decode_instr_s instr
    | InstructionFormat.U => Decoder.decode_instr_u instr)

/-- Method `Instruction::mnemonic`: `Decoder::decode(self).unwrap()`
followed by `to_string()`; `none` models the panic (from the `unwrap` on
a `None` decode, or from `format` inside `decode`). -/
def Instruction.mnemonic (instr : Nat) : Option String :=
  match Decoder.decode instr with
  | some (some op) => some (Op.displayString op)
  | _ => none

/-- The `Display` implementation for `Instruction`: the operand layout by
format, with the same call order as the Rust `format!` arguments (the
mnemonic first).  Column padding and hexadecimal rendering of the numbers
are elided; `none` models a panic in any of the called methods. -/
def Instruction.display (instr : Nat) : Option String :=
  (Instruction.format instr).bind (fun f =>
    match f with
    | InstructionFormat.B => do
      let m ← Instruction.mnemonic instr
      let r1 ← unwrapped (Instruction.rs1 instr)
      let r2 ← unwrapped (Instruction.rs2 instr)
      let i ← unwrapped (Instruction.imm instr)
      pure (m ++ " x" ++ toString r1 ++ ", x" ++ toString r2 ++ ", "
        ++ toString i)
    | InstructionFormat.I =>
      match Instruction.opcode instr with
      | 0x03 | 0x67 => do
        let m ← Instruction.mnemonic instr
        let rd ← unwrapped (Instruction.rd instr)
        let i ← unwrapped (Instruction.imm instr)
        let r1 ← unwrapped (Instruction.rs1 instr)
        pure (m ++ " x" ++ toString rd ++ ", " ++ toString i ++ "(x"
          ++ toString r1 ++ ")")
      | _ => do
        let m ← Instruction.mnemonic instr
        let rd ← unwrapped (Instruction.rd instr)
        let r1 ← unwrapped (Instruction.rs1 instr)
        let i ← unwrapped (Instruction.imm instr)
        pure (m ++ " x" ++ toString rd ++ ", x" ++ toString r1 ++ ", "
          ++ toString i)
    | InstructionFormat.J => do
      let m ← Instruction.mnemonic instr
      let rd ← unwrapped (Instruction.rd instr)
      let i ← unwrapped (Instruction.imm instr)
      pure (m ++ " x" ++ toString rd ++ ", " ++ toString i)
    | InstructionFormat.R => do
      let m ← Instruction.mnemonic instr
      let rd ← unwrapped (Instruction.rd instr)
      let r1 ← unwrapped (Instruction.rs1 instr)
      let r2 ← unwrapped (Instruction.rs2 instr)
      pure (m ++ " x" ++ toString rd ++ ", x" ++ toString r1 ++ ", x"
        ++ toString r2)
    | InstructionFormat.S => do
      let m ← Instruction.mnemonic instr
      let r2 ← unwrapped (Instruction.rs2 instr)
      let i ← unwrapped (Instruction.imm instr)
      let r1 ← unwrapped (Instruction.rs1 instr)
      pure (m ++ " x" ++ toString r2 ++ ", " ++ toString i ++ "(x"
        ++ toString r1 ++ ")")
    | InstructionFormat.U => do
      let m ← Instruction.mnemonic instr
      let rd ← unwrapped (Instruction.rd instr)
      let i ← unwrapped (Instruction.imm instr)
      pure (m ++ " x" ++ toString rd ++ ", " ++ toString i))

/-! ### `alu.rs` -/

/-- Method `Alu::run`: the operands are `i32` values; `none` models the
`todo!()` of the catch-all arm. -/
def Alu.run (op : Op) (x y : Int) : Option Int :=
  match op with
  | Op.ArithmeticAdd | Op.ArithmeticAddImmediate =>
    some (wrapping_add32 x y)
  | Op.ArithmeticSub =>
    some (wrapping_sub32 x y)
  | Op.BranchEqual =>
    some (if x = y then 1 else 0)
  | Op.BranchGreaterThanOrEqualTo =>
    some (if x ≥ y then 1 else 0)
  | Op.BranchGreaterThanOrEqualToUnsigned =>
    some (if i32_as_u32 x ≥ i32_as_u32 y then 1 else 0)
  | Op.BranchLessThan | Op.SetLessThan | Op.SetLessThanImmediate =>
    some (if x < y then 1 else 0)
  | Op.BranchLessThanUnsigned | Op.SetLessThanImmediateUnsigned
  | Op.SetLessThanUnsigned =>
    some (if i32_as_u32 x < i32_as_u32 y then 1 else 0)
  | Op.BranchNotEqual =>
    some (if x ≠ y then 1 else 0)
  | Op.LogicalAnd | Op.LogicalAndImmediate =>
    some (i32_and x y)
  | Op.LogicalOr | Op.LogicalOrImmediate =>
    some (i32_or x y)
  | Op.LogicalExclusiveOr | Op.LogicalExclusiveOrImmediate =>
    some (i32_xor x y)
  | Op.ShiftLeftLogical | Op.ShiftLeftLogicalImmediate =>
    some (wrapping_shl32 x (i32_as_u32 y))
  | Op.ShiftRightArithmetic | Op.ShiftRightArithmeticImmediate =>
    some (wrapping_shr32 x (i32_as_u32 y))
  | Op.ShiftRightLogical | Op.ShiftRightLogicalImmediate =>
    some (u32_as_i32 (u32_wrapping_shr (i32_as_u32 x) (i32_as_u32 y)))
  | _ => none

/-- The declared domain of the ALU: exactly the operations matched by the
non-catch-all arms of `Alu::run`. -/
def AluDomain : Op → Bool
  | Op.ArithmeticAdd | Op.ArithmeticAddImmediate | Op.ArithmeticSub
  | Op.BranchEqual | Op.BranchGreaterThanOrEqualTo
  | Op.BranchGreaterThanOrEqualToUnsigned
  | Op.BranchLessThan | Op.SetLessThan | Op.SetLessThanImmediate
  | Op.BranchLessThanUnsigned | Op.SetLessThanImmediateUnsigned
  | Op.SetLessThanUnsigned | Op.BranchNotEqual
  | Op.LogicalAnd | Op.LogicalAndImmediate
  | Op.LogicalOr | Op.LogicalOrImmediate
  | Op.LogicalExclusiveOr | Op.LogicalExclusiveOrImmediate
  | Op.ShiftLeftLogical | Op.ShiftLeftLogicalImmediate
  | Op.ShiftRightArithmetic | Op.ShiftRightArithmeticImmediate
  | Op.ShiftRightLogical | Op.ShiftRightLogicalImmediate => true
  | _ => false

/-- The shift operations among the ALU domain. -/
def ShiftOp : Op → Bool
  | Op.ShiftLeftLogical | Op.ShiftLeftLogicalImmediate
  | Op.ShiftRightArithmetic | Op.ShiftRightArithmeticImmediate
  | Op.ShiftRightLogical | Op.ShiftRightLogicalImmediate => true
  | _ => false

/-- Bit-exact RV32I reference semantics of the ALU operations, written
from the specification's §4.3 table, over 32-bit patterns: wrapping add
and sub, bitwise logic, shifts by `y mod 32` (zero-fill, zero-fill,
sign-fill respectively), signed and unsigned comparisons returning 1 or
0.  Operations outside the enumerated set are a caller error (`none`). -/
def rv32iAluSpec (op : Op) (x y : Nat) : Option Nat :=
  match op with
  | Op.ArithmeticAdd | Op.ArithmeticAddImmediate =>
    some ((x + y) % 2 ^ 32)
  | Op.ArithmeticSub =>
    some ((2 ^ 32 + x - y) % 2 ^ 32)
  | Op.BranchEqual =>
    some (if x = y then 1 else 0)
  | Op.BranchGreaterThanOrEqualTo =>
    some (if u32_as_i32 x ≥ u32_as_i32 y then 1 else 0)
  | Op.BranchGreaterThanOrEqualToUnsigned =>
    some (if x ≥ y then 1 else 0)
  | Op.BranchLessThan | Op.SetLessThan | Op.SetLessThanImmediate =>
    some (if u32_as_i32 x < u32_as_i32 y then 1 else 0)
  | Op.BranchLessThanUnsigned | Op.SetLessThanImmediateUnsigned
  | Op.SetLessThanUnsigned =>
    some (if x < y then 1 else 0)
  | Op.BranchNotEqual =>
    some (if x ≠ y then 1 else 0)
  | Op.LogicalAnd | Op.LogicalAndImmediate =>
    some (x &&& y)
  | Op.LogicalOr | Op.LogicalOrImmediate =>
    some (x ||| y)
  | Op.LogicalExclusiveOr | Op.LogicalExclusiveOrImmediate =>
    some (x ^^^ y)
  | Op.ShiftLeftLogical | Op.ShiftLeftLogicalImmediate =>
    some ((x <<< (y % 32)) % 2 ^ 32)
  | Op.ShiftRightLogical | Op.ShiftRightLogicalImmediate =>
    some (x >>> (y % 32))
  | Op.ShiftRightArithmetic | Op.ShiftRightArithmeticImmediate =>
    some (if x < 2 ^ 31 then x >>> (y % 32)
      else x >>> (y % 32) + (2 ^ 32 - 2 ^ (32 - y % 32)))
  | _ => none

/-! ### `processor.rs`: the J-type execution handler -/

/-- Method `Processor::execute_instr_j`: for a `jal` word the immediate
is checked for four-byte alignment (a misaligned target hits a `todo!`),
the return address `pc + 4` (wrapping) is written to `rd`, and then the
jump itself is an unconditional `todo!()`; any other opcode reaches the
`todo!()` inside `handle_illegal_instr`.  Every path therefore panics
(`none`); the Rust `%` on `i32` is truncated remainder (`Int.tmod`). -/
def Processor.execute_instr_j (p : Processor) (instr : Nat) :
    Option Processor :=
  match Instruction.opcode instr with
  | 0x6f =>
    (unwrapped (Instruction.imm instr)).bind (fun imm =>
      if Int.tmod imm ((32 / 8 : Nat) : Int) ≠ 0 then
        none
      else
        (unwrapped (Instruction.rd instr)).bind (fun rd =>
          (p.reg_x.write rd ((p.pc + 32 / 8) % 2 ^ 32)).bind (fun _ =>
            none)))
  | _ => none

/-- Physical slot written last by a wrapping span store: the largest
`i < n` with `(base + i) % len = j`, if any. -/
def lastHit (base len n j : Nat) : Option Nat :=
  ((List.range n).filter (fun i => (base + i) % len = j)).getLast?

/-- The access-level vector produced by `Processor::new` (index 0 `Read`,
indices 1–30 `ReadWrite`, index 31 left `Read` by the loop bound). -/
def initAccessLevels : List AccessLevel :=
  AccessLevel.Read ::
    (List.replicate 30 AccessLevel.ReadWrite ++ [AccessLevel.Read])

/-! ## Theorems -/

/-- Evaluation of `Processor::new`. -/
theorem Processor.new_eq :
    Processor.new =
      some ⟨0, ⟨initAccessLevels, List.replicate 32 0⟩⟩ := by
  decide

/-- C2: the claim says `Processor::new` makes every index in `1..=31`
writable; the code's loop `1 .. len - 1` stops at 30, so index 31 keeps
access level `Read` and a write to it is silently discarded (evaluation
of the code at the failing input: `write(31, 0xff)` then `read(31)` gives
0, and `is_read_only(31)` is `true`, while `pc`, the values and index 0
match the claim). -/
theorem claim_C2_new_x31_readonly :
    (Processor.new.bind fun p => Registers.is_read_only p.reg_x 31)
        = some true
      ∧ (Processor.new.bind fun p =>
          (Registers.write p.reg_x 31 0xff).bind fun r =>
            Registers.read r 31) = some 0
      ∧ (Processor.new.bind fun p =>
          (Registers.write p.reg_x 30 0xff).bind fun r =>
            Registers.read r 30) = some 0xff := by
  decide

/-- C3: for a word whose opcode is not in the format map (here the word
0, opcode 0x00), `Instruction::format` hits its `todo!` and the decoder
panics instead of returning the claimed `None`: evaluation of the code
at the failing input. -/
theorem claim_C3_decode_panics_on_unmapped_opcode :
    Instruction.format 0x00000000 = none
      ∧ Decoder.decode 0x00000000 = none := by
  decide

/-- C4: evaluation of the code at the failing input 0x80000063 (a
B-format word whose only immediate bit is word bit 31): the claim says
the immediate is sign-extended from bit 12 and is negative exactly when
word bit 31 is set, so it should be -4096 here; `imm_b` passes width 12
to `sign_ext`, the carrier bit 12 is shifted out, and the result is 0. -/
theorem claim_C4_imm_b_drops_bit12 :
    Instruction.imm_b 0x80000063 = 0
      ∧ (0x80000063 : Nat) >>> 31 &&& 1 = 1
      ∧ Instruction.imm_b 0x80000063 ≠ -4096 := by
  decide

/-- C7: evaluation of the code at the failing input (fresh processor,
`pc = 0x100`, word 0x0400006f).  The word's `rd` field is 0 (the repo's
own test labels this word `jal x0, 64`), so the return-address write is
discarded, and execution reaches the unconditional `todo!()` for the
jump, i.e. it panics (`none`) rather than terminating with
`x1 = 0x104` and `pc = 0x140`. -/
theorem claim_C7_jal_panics :
    ((Processor.new.map fun p => { p with pc := 0x100 }).bind fun p =>
        Processor.execute_instr_j p 0x0400006f) = none
      ∧ unwrapped (Instruction.rd 0x0400006f) = some 0
      ∧ ((Processor.new.map fun p => { p with pc := 0x100 }).bind fun p =>
          (Registers.write p.reg_x 0 ((p.pc + 4) % 2 ^ 32)).bind fun r =>
            Registers.read r 1) = some 0 := by
  decide

/-- C1 counterexample: the exposed operations include
`set_access_level`; the sequence `set_access_level(0, ReadWrite)` then
`write(0, 1)` on a freshly created processor makes `read(0)` return 1,
refuting the claim for unrestricted operation sequences. -/
theorem claim_C1_counterexample :
    (Processor.new.bind fun p =>
      (applyRegOps p.reg_x
        [RegOp.setAccessLevel 0 AccessLevel.ReadWrite,
          RegOp.write 0 1]).bind fun r =>
        Registers.read r 0) = some 1 := by
  decide

/-- Preservation of the zero-register invariant by one operation: if
index 0 is marked `Read` and holds 0, any `write`, any `reset`, and any
`set_access_level` on an index other than 0 keep it that way.  No case
special-cases index 0 in `write` itself: the `write` case relies only on
`is_read_only`. -/
theorem RegOp.apply_inv (r r' : Registers) (op : RegOp)
    (hop : ∀ i l, op = RegOp.setAccessLevel i l → i ≠ 0)
    (h1 : r.access_levels.get? 0 = some AccessLevel.Read)
    (h2 : r.values.get? 0 = some 0)
    (h3 : 0 < r.values.length)
    (happ : RegOp.apply r op = some r') :
    r'.access_levels.get? 0 = some AccessLevel.Read
      ∧ r'.values.get? 0 = some 0
      ∧ 0 < r'.values.length := by
  cases op with
  | write i v =>
    rw [RegOp.apply, Registers.write, Registers.is_read_only] at happ
    cases hacc : r.access_levels.get? i with
    | none => rw [hacc] at happ; exact absurd happ (by simp)
    | some l =>
      rw [hacc] at happ
      simp only [Option.map_some', Option.some.injEq] at happ
      cases l with
      | Read =>
        rw [if_pos (by decide)] at happ
        exact happ ▸ ⟨h1, h2, h3⟩
      | ReadWrite =>
        rw [if_neg (by decide)] at happ
        subst happ
        refine ⟨h1, ?_, by simpa using h3⟩
        have hi : i ≠ 0 := by
          intro h
          subst h
          rw [hacc] at h1
          exact absurd h1 (by simp)
        simpa [List.get?_eq_getElem?, List.getElem?_set, hi] using h2
  | reset =>
    simp only [RegOp.apply, Option.some.injEq] at happ
    subst happ
    refine ⟨h1, ?_, by simpa [Registers.reset] using h3⟩
    simp [Registers.reset, List.get?_eq_getElem?, List.getElem?_replicate, h3]
  | setAccessLevel i l =>
    have hi : i ≠ 0 := hop i l rfl
    simp only [RegOp.apply, Registers.set_access_level] at happ
    split at happ
    · simp only [Option.some.injEq] at happ
      subst happ
      refine ⟨?_, h2, h3⟩
      simpa [List.get?_eq_getElem?, List.getElem?_set, hi] using h1
    · exact absurd happ (by simp)

/-- The zero-register invariant survives a whole operation sequence. -/
theorem applyRegOps_inv (ops : List RegOp) :
    ∀ r : Registers,
      (∀ i l, RegOp.setAccessLevel i l ∈ ops → i ≠ 0) →
      r.access_levels.get? 0 = some AccessLevel.Read →
      r.values.get? 0 = some 0 →
      0 < r.values.length →
      ∀ r', applyRegOps r ops = some r' →
        r'.access_levels.get? 0 = some AccessLevel.Read
          ∧ r'.values.get? 0 = some 0
          ∧ 0 < r'.values.length := by
  induction ops with
  | nil =>
    intro r _ h1 h2 h3 r' happ
    simp only [applyRegOps, List.foldlM_nil, Option.pure_def,
      Option.some.injEq] at happ
    exact happ ▸ ⟨h1, h2, h3⟩
  | cons op ops ih =>
    intro r hops h1 h2 h3 r' happ
    simp only [applyRegOps, List.foldlM_cons, Option.bind_eq_bind] at happ
    cases h0 : RegOp.apply r op with
    | none => rw [h0] at happ; exact absurd happ (by simp)
    | some r1 =>
      rw [h0] at happ
      simp only [Option.some_bind] at happ
      have hop0 : ∀ i l, op = RegOp.setAccessLevel i l → i ≠ 0 := by
        intro i l h
        exact hops i l (h ▸ List.mem_cons_self op ops)
      obtain ⟨g1, g2, g3⟩ := RegOp.apply_inv r r1 op hop0 h1 h2 h3 h0
      exact ih r1 (fun i l hm => hops i l (List.mem_cons_of_mem _ hm))
        g1 g2 g3 r' happ

/-- C1 (amended): for every sequence of register-file operations
(`write`, `reset`, `set_access_level`) in which no `set_access_level`
targets index 0, applied to the register file of a freshly created
`Processor`, a completing application leaves `read(0) = 0`.  The proof
rests only on index 0 being marked `Read` at construction and on `write`
honouring the access level (`RegOp.apply_inv`); `write` has no special
case for index 0. -/
theorem claim_C1_x0_reads_zero (ops : List RegOp)
    (hops : ∀ i l, RegOp.setAccessLevel i l ∈ ops → i ≠ 0)
    (p : Processor) (hp : Processor.new = some p)
    (r : Registers) (hr : applyRegOps p.reg_x ops = some r) :
    Registers.read r 0 = some 0 := by
  rw [Processor.new_eq] at hp
  injection hp with hp
  subst hp
  obtain ⟨-, h2, -⟩ :=
    applyRegOps_inv ops _ hops (by decide) (by decide) (by decide) r hr
  exact h2

/-- Witness for C1: the amended theorem applied to the concrete sequence
`[write 1 7]` on the concrete fresh processor. -/
theorem claim_C1_witness :
    Registers.read
      ⟨initAccessLevels, (List.replicate 32 (0 : Nat)).set 1 7⟩ 0
      = some 0 :=
  claim_C1_x0_reads_zero [RegOp.write 1 7]
    (by intro i l h; simp at h)
    ⟨0, ⟨initAccessLevels, List.replicate 32 0⟩⟩ (by decide)
    ⟨initAccessLevels, (List.replicate 32 (0 : Nat)).set 1 7⟩ (by decide)

/-- C9: for every word whose opcode is in the format map but whose
discriminant tuple decodes to `None`, `Instruction::mnemonic` panics
(the `unwrap` of the `None` decode, modelled as `none`), and with it the
`Display` formatting of the instruction, instead of returning an error
or placeholder string. -/
theorem claim_C9_mnemonic_panics (w : Nat) (f : InstructionFormat)
    (hf : Instruction.format w = some f)
    (hd : Decoder.decode w = some none) :
    Instruction.mnemonic w = none ∧ Instruction.display w = none := by
  have hm : Instruction.mnemonic w = none := by
    rw [Instruction.mnemonic, hd]
  refine ⟨hm, ?_⟩
  rw [Instruction.display, hf]
  cases f
  all_goals simp [hm]
  all_goals (split <;> rfl)

/-- Witness for C9: word 0x00002063 has opcode 0x63 (format B) but
funct3 2, which is outside the branch table, so the decode is
`Some(None)` and both `mnemonic` and `Display` panic. -/
theorem claim_C9_witness :
    Instruction.format 0x00002063 = some InstructionFormat.B
      ∧ Decoder.decode 0x00002063 = some none
      ∧ Instruction.mnemonic 0x00002063 = none
      ∧ Instruction.display 0x00002063 = none := by
  have h := claim_C9_mnemonic_panics 0x00002063 InstructionFormat.B
    (by decide) (by decide)
  exact ⟨by decide, by decide, h.1, h.2⟩

/-- C10: `Memory::new(0)` succeeds with an empty byte vector, every
`read` of a positive length and every `write` of a non-empty slice then
panics (the remainder-by-zero inside `wrap_addr`, modelled as `none`),
and the zero-length spans are the only accesses that complete. -/
theorem claim_C10_zero_size_memory :
    Memory.new 0 = ⟨[]⟩
      ∧ (∀ a k, 0 < k → Memory.read (Memory.new 0) a k = none)
      ∧ (∀ a v, v ≠ [] → Memory.write (Memory.new 0) a v = none)
      ∧ (∀ a, Memory.read (Memory.new 0) a 0 = some []
          ∧ Memory.write (Memory.new 0) a [] = some (Memory.new 0)) := by
  refine ⟨rfl, ?_, ?_, ?_⟩
  · intro a k hk
    cases k with
    | zero => exact absurd hk (by decide)
    | succ n =>
      simp [Memory.read, Memory.new, Memory.wrap_addr,
        List.range_succ_eq_map, List.mapM_cons, List.mapM.loop]
  · intro a v hv
    cases v with
    | nil => exact absurd rfl hv
    | cons b bs =>
      simp [Memory.write, Memory.new, Memory.wrap_addr]
  · intro a
    exact ⟨by simp [Memory.read, List.mapM.loop], rfl⟩

/-- Witness for C10: the zero-size memory at concrete inputs. -/
theorem claim_C10_witness :
    Memory.read (Memory.new 0) 5 1 = none
      ∧ Memory.write (Memory.new 0) 5 [3] = none
      ∧ Memory.read (Memory.new 0) 5 0 = some [] :=
  ⟨claim_C10_zero_size_memory.2.1 5 1 (by decide),
    claim_C10_zero_size_memory.2.2.1 5 [3] (by decide),
    (claim_C10_zero_size_memory.2.2.2 5).1⟩

/-- Every `as u32` result is a 32-bit pattern. -/
theorem i32_as_u32_lt (i : Int) : i32_as_u32 i < 2 ^ 32 := by
  unfold i32_as_u32
  omega

/-- Round trip: reinterpreting a 32-bit pattern as `i32` and back is the
identity. -/
theorem u32_round (n : Nat) (h : n < 2 ^ 32) :
    i32_as_u32 (u32_as_i32 n) = n := by
  unfold u32_as_i32 i32_as_u32
  split <;> omega

/-- Wrapping does not change the pattern. -/
theorem i32_as_u32_wrap (i : Int) : i32_as_u32 (i32_wrap i) = i32_as_u32 i := by
  rw [i32_wrap, u32_round _ (i32_as_u32_lt i)]

/-- The signed reinterpretation is injective on 32-bit patterns. -/
theorem u32_as_i32_inj (x y : Nat) (hx : x < 2 ^ 32) (hy : y < 2 ^ 32) :
    u32_as_i32 x = u32_as_i32 y ↔ x = y := by
  unfold u32_as_i32
  split_ifs <;> omega

/-- A 0/1 result passes unchanged through the `as u32` cast. -/
theorem i32_as_u32_bit (c : Prop) [Decidable c] :
    i32_as_u32 (if c then 1 else 0) = if c then 1 else 0 := by
  split <;> decide

/-- Pattern-level behaviour of the source `add`/`addi` arm. -/
theorem add_pattern (x y : Nat) (_hx : x < 2 ^ 32) (_hy : y < 2 ^ 32) :
    i32_as_u32 (wrapping_add32 (u32_as_i32 x) (u32_as_i32 y))
      = (x + y) % 2 ^ 32 := by
  rw [wrapping_add32, i32_as_u32_wrap]
  unfold u32_as_i32 i32_as_u32
  split_ifs <;> omega

/-- Pattern-level behaviour of the source `sub` arm. -/
theorem sub_pattern (x y : Nat) (hx : x < 2 ^ 32) (hy : y < 2 ^ 32) :
    i32_as_u32 (wrapping_sub32 (u32_as_i32 x) (u32_as_i32 y))
      = (2 ^ 32 + x - y) % 2 ^ 32 := by
  rw [wrapping_sub32, i32_as_u32_wrap]
  unfold u32_as_i32 i32_as_u32
  split_ifs <;> omega

/-- Pattern-level behaviour of the source `and`/`andi` arm. -/
theorem and_pattern (x y : Nat) (hx : x < 2 ^ 32) (hy : y < 2 ^ 32) :
    i32_as_u32 (i32_and (u32_as_i32 x) (u32_as_i32 y)) = x &&& y := by
  rw [i32_and, u32_round x hx, u32_round y hy,
    u32_round _ (Nat.and_lt_two_pow x hy)]

/-- Pattern-level behaviour of the source `or`/`ori` arm. -/
theorem or_pattern (x y : Nat) (hx : x < 2 ^ 32) (hy : y < 2 ^ 32) :
    i32_as_u32 (i32_or (u32_as_i32 x) (u32_as_i32 y)) = x ||| y := by
  rw [i32_or, u32_round x hx, u32_round y hy,
    u32_round _ (Nat.or_lt_two_pow hx hy)]

/-- Pattern-level behaviour of the source `xor`/`xori` arm. -/
theorem xor_pattern (x y : Nat) (hx : x < 2 ^ 32) (hy : y < 2 ^ 32) :
    i32_as_u32 (i32_xor (u32_as_i32 x) (u32_as_i32 y)) = x ^^^ y := by
  rw [i32_xor, u32_round x hx, u32_round y hy,
    u32_round _ (Nat.xor_lt_two_pow hx hy)]

/-- Pattern-level behaviour of the source `sll`/`slli` arm. -/
theorem sll_pattern (x y : Nat) (hx : x < 2 ^ 32) (hy : y < 2 ^ 32) :
    i32_as_u32 (wrapping_shl32 (u32_as_i32 x) (i32_as_u32 (u32_as_i32 y)))
      = (x <<< (y % 32)) % 2 ^ 32 := by
  rw [u32_round y hy, wrapping_shl32, u32_round x hx,
    u32_round _ (Nat.mod_lt _ (by positivity))]

/-- Pattern-level behaviour of the source `srl`/`srli` arm. -/
theorem srl_pattern (x y : Nat) (hx : x < 2 ^ 32) (hy : y < 2 ^ 32) :
    i32_as_u32 (u32_as_i32
        (u32_wrapping_shr (i32_as_u32 (u32_as_i32 x))
          (i32_as_u32 (u32_as_i32 y))))
      = x >>> (y % 32) := by
  have hb : x >>> (y % 32) < 2 ^ 32 := by
    rw [Nat.shiftRight_eq_div_pow]
    exact lt_of_le_of_lt (Nat.div_le_self _ _) hx
  rw [u32_round x hx, u32_round y hy, u32_wrapping_shr, u32_round _ hb]

/-- Arithmetic right shift of a 32-bit pattern, at the pattern level:
floor-dividing the signed value by `2 ^ s` and recasting fills the top
`s` bits with copies of the sign bit. -/
theorem sra_core (x s : Nat) (hx : x < 2 ^ 32) (hs : s < 32) :
    i32_as_u32 (Int.fdiv (u32_as_i32 x) (2 ^ s)) =
      if x < 2 ^ 31 then x >>> s
      else x >>> s + (2 ^ 32 - 2 ^ (32 - s)) := by
  have h2s : (0:Int) ≤ 2 ^ s := by positivity
  rw [Int.fdiv_eq_ediv _ h2s]
  have hq : x >>> s = x / 2 ^ s := Nat.shiftRight_eq_div_pow x s
  have hqlt : x / 2 ^ s < 2 ^ (32 - s) := by
    apply Nat.div_lt_of_lt_mul
    calc x < 2 ^ 32 := hx
      _ = 2 ^ s * 2 ^ (32 - s) := by rw [← pow_add]; congr 1; omega
  unfold u32_as_i32
  split_ifs with h
  · have hcast : ((x : Int)) / ((2:Int) ^ s) = ((x / 2 ^ s : Nat) : Int) := by
      exact_mod_cast (Int.ofNat_ediv x (2 ^ s)).symm
    rw [hcast, hq]
    have hlt : x / 2 ^ s < 2 ^ 32 := lt_of_le_of_lt (Nat.div_le_self _ _) hx
    unfold i32_as_u32
    generalize x / 2 ^ s = q at hlt ⊢
    omega
  · have hxq := Nat.div_add_mod x (2 ^ s)
    have hrlt : x % 2 ^ s < 2 ^ s := Nat.mod_lt _ (by positivity)
    have hpowsum : (2:Int) ^ (32 - s) * 2 ^ s = 2 ^ 32 := by
      rw [← pow_add]; congr 1; omega
    have e1 : (x:Int) - 2 ^ 32
        = ((x % 2 ^ s : Nat) : Int)
          + (((x / 2 ^ s : Nat) : Int) - 2 ^ (32 - s)) * 2 ^ s := by
      have hx2 : ((x:Int))
          = 2 ^ s * ((x / 2 ^ s : Nat) : Int) + ((x % 2 ^ s : Nat) : Int) := by
        exact_mod_cast hxq.symm
      rw [← hpowsum, hx2]
      ring
    rw [e1, Int.add_mul_ediv_right _ _ ((by positivity : (0:Int) < 2 ^ s).ne'),
      Int.ediv_eq_zero_of_lt (by positivity) (by exact_mod_cast hrlt)]
    rw [hq]
    unfold i32_as_u32
    have hA : (2:Nat) ^ (32 - s) ≤ 2 ^ 32 :=
      Nat.pow_le_pow_right (by norm_num) (by omega)
    have hcastA : ((2:Int) ^ (32 - s)) = ((2 ^ (32 - s) : Nat) : Int) := by
      push_cast; ring
    rw [hcastA]
    clear hxq hrlt hpowsum e1 hcastA hq
    generalize x / 2 ^ s = q at hqlt ⊢
    generalize (2 : Nat) ^ (32 - s) = A at hqlt hA ⊢
    omega

/-- Pattern-level behaviour of the source `sra`/`srai` arm. -/
theorem sra_pattern (x y : Nat) (hx : x < 2 ^ 32) (hy : y < 2 ^ 32) :
    i32_as_u32 (wrapping_shr32 (u32_as_i32 x) (i32_as_u32 (u32_as_i32 y)))
      = if x < 2 ^ 31 then x >>> (y % 32)
        else x >>> (y % 32) + (2 ^ 32 - 2 ^ (32 - y % 32)) := by
  rw [u32_round y hy, wrapping_shr32, asr32]
  exact sra_core x (y % 32) hx (Nat.mod_lt _ (by norm_num))

/-- Pattern-level behaviour of the source `beq` arm. -/
theorem beq_pattern (x y : Nat) (hx : x < 2 ^ 32) (hy : y < 2 ^ 32) :
    i32_as_u32 (if u32_as_i32 x = u32_as_i32 y then 1 else 0)
      = if x = y then 1 else 0 := by
  rw [if_congr (u32_as_i32_inj x y hx hy) rfl rfl]
  exact i32_as_u32_bit _

/-- Pattern-level behaviour of the source `bne` arm. -/
theorem bne_pattern (x y : Nat) (hx : x < 2 ^ 32) (hy : y < 2 ^ 32) :
    i32_as_u32 (if u32_as_i32 x ≠ u32_as_i32 y then 1 else 0)
      = if x ≠ y then 1 else 0 := by
  rw [if_congr (not_congr (u32_as_i32_inj x y hx hy)) rfl rfl]
  exact i32_as_u32_bit _

/-- Pattern-level behaviour of the source `bgeu` arm. -/
theorem bgeu_pattern (x y : Nat) (hx : x < 2 ^ 32) (hy : y < 2 ^ 32) :
    i32_as_u32
        (if i32_as_u32 (u32_as_i32 x) ≥ i32_as_u32 (u32_as_i32 y)
          then 1 else 0)
      = if x ≥ y then 1 else 0 := by
  rw [u32_round x hx, u32_round y hy]
  exact i32_as_u32_bit _

/-- Pattern-level behaviour of the source `bltu`/`sltu`/`sltiu` arm. -/
theorem bltu_pattern (x y : Nat) (hx : x < 2 ^ 32) (hy : y < 2 ^ 32) :
    i32_as_u32
        (if i32_as_u32 (u32_as_i32 x) < i32_as_u32 (u32_as_i32 y)
          then 1 else 0)
      = if x < y then 1 else 0 := by
  rw [u32_round x hx, u32_round y hy]
  exact i32_as_u32_bit _

/-- C5: on its declared domain the ALU of `alu.rs`, applied to the
signed reinterpretations of two 32-bit patterns, never panics and agrees
bit-exactly with the RV32I reference semantics of §4.3; outside the
domain both sides are undefined (the `todo!()` catch-all). -/
theorem claim_C5_alu_bit_exact (op : Op) (x y : Nat)
    (hx : x < 2 ^ 32) (hy : y < 2 ^ 32) :
    (Alu.run op (u32_as_i32 x) (u32_as_i32 y)).map i32_as_u32
        = rv32iAluSpec op x y
      ∧ (AluDomain op = true → (rv32iAluSpec op x y).isSome = true) := by
  constructor
  · cases op <;>
      simp only [Alu.run, rv32iAluSpec, Option.map_some', Option.map_none',
        Option.some.injEq] <;>
      first
        | rfl
        | exact add_pattern x y hx hy
        | exact sub_pattern x y hx hy
        | exact and_pattern x y hx hy
        | exact or_pattern x y hx hy
        | exact xor_pattern x y hx hy
        | exact sll_pattern x y hx hy
        | exact srl_pattern x y hx hy
        | exact sra_pattern x y hx hy
        | exact beq_pattern x y hx hy
        | exact bne_pattern x y hx hy
        | exact bgeu_pattern x y hx hy
        | exact bltu_pattern x y hx hy
        | exact i32_as_u32_bit _
  · cases op <;> intro h <;> first | rfl | exact absurd h (by decide)

/-- Witness for C5: the `add` operation on the concrete patterns 3 and
5. -/
theorem claim_C5_witness :
    (3 : Nat) < 2 ^ 32 ∧ (5 : Nat) < 2 ^ 32
      ∧ (Alu.run Op.ArithmeticAdd (u32_as_i32 3) (u32_as_i32 5)).map
          i32_as_u32 = rv32iAluSpec Op.ArithmeticAdd 3 5 :=
  ⟨by decide, by decide,
    (claim_C5_alu_bit_exact Op.ArithmeticAdd 3 5 (by decide) (by decide)).1⟩

/-- The shift amount actually used by the ALU only depends on `y mod
32`. -/
theorem shift_amount_mask (y : Int) :
    i32_as_u32 y % 32 = i32_as_u32 (y % 32) % 32 := by
  unfold i32_as_u32
  have hdvd : ((32:Int) ∣ 2 ^ 32) := ⟨2 ^ 27, by norm_num⟩
  have h1 : (y % 2 ^ 32) % 32 = y % 32 := Int.emod_emod_of_dvd y hdvd
  have h2 : 0 ≤ y % 2 ^ 32 := Int.emod_nonneg y (by norm_num)
  have h3 : 0 ≤ y % 32 := Int.emod_nonneg y (by norm_num)
  have h4 : y % 32 < 32 := Int.emod_lt_of_pos y (by norm_num)
  have h5 : (y % 32) % 2 ^ 32 = y % 32 := Int.emod_eq_of_lt h3 (by omega)
  rw [h5]
  omega

/-- C6: for each of the six shift operations and all `i32` operands, the
ALU result is unchanged when the shift amount is replaced by `y mod 32`:
only the low five bits of the shift amount matter. -/
theorem claim_C6_shift_mask (op : Op) (hop : ShiftOp op = true)
    (x y : Int) :
    Alu.run op x y = Alu.run op x (y % 32) := by
  cases op <;>
    first
      | exact absurd hop (by decide)
      | (simp only [Alu.run, wrapping_shl32, wrapping_shr32,
          u32_wrapping_shr, Option.some.injEq]
         rw [shift_amount_mask y])

/-- Witness for C6: `sll` with shift amount 33 behaves as with 1. -/
theorem claim_C6_witness :
    ShiftOp Op.ShiftLeftLogical = true
      ∧ Alu.run Op.ShiftLeftLogical 1 33
          = Alu.run Op.ShiftLeftLogical 1 (33 % 32) :=
  ⟨by decide, claim_C6_shift_mask Op.ShiftLeftLogical (by decide) 1 33⟩

/-- An option-valued map over a list succeeds pointwise when every
element succeeds. -/
theorem mapM_some_of_forall {α β : Type} (l : List α) (f : α → Option β)
    (g : α → β) (h : ∀ a ∈ l, f a = some (g a)) :
    l.mapM f = some (l.map g) := by
  induction l with
  | nil => rfl
  | cons a l ih =>
    have h1 : f a = some (g a) := h a (List.mem_cons_self a l)
    have h2 := ih (fun b hb => h b (List.mem_cons_of_mem a hb))
    rw [List.mapM_cons, h1, h2]
    rfl

/-- On a non-empty memory, `read` returns exactly `len` bytes, byte `i`
being the stored byte at physical index `(base + i) mod len`. -/
theorem Memory.read_eq (m : Memory) (h : 0 < m.data.length)
    (base len : Nat) :
    Memory.read m base len
      = some ((List.range len).map fun i =>
          m.data.getD ((base + i) % m.data.length) 0) := by
  unfold Memory.read
  apply mapM_some_of_forall
  intro i _
  rw [Memory.wrap_addr, if_neg (by omega)]
  have hidx : (base + i) % m.data.length < m.data.length := Nat.mod_lt _ h
  simp [List.get?_eq_getElem?, List.getElem?_eq_getElem hidx,
    List.getD_eq_getElem?_getD]

/-- A span write decomposes into the write of the initial span followed
by the write of the final byte. -/
theorem Memory.write_append (vs : List Nat) :
    ∀ (m : Memory) (base : Nat) (x : Nat),
      Memory.write m base (vs ++ [x])
        = (Memory.write m base vs).bind fun m' =>
            Memory.write m' (base + vs.length) [x] := by
  induction vs with
  | nil => intro m base x; simp [Memory.write]
  | cons v vs ih =>
    intro m base x
    simp only [List.cons_append, List.length_cons]
    show (m.wrap_addr base).bind (fun index =>
        Memory.write ⟨m.data.set index v⟩ (base + 1) (vs ++ [x]))
      = ((m.wrap_addr base).bind (fun index =>
          Memory.write ⟨m.data.set index v⟩ (base + 1) vs)).bind
          (fun m' => Memory.write m' (base + (vs.length + 1)) [x])
    cases hw : m.wrap_addr base with
    | none => rfl
    | some idx =>
      simp only [Option.some_bind]
      rw [ih]
      simp only [show base + 1 + vs.length = base + (vs.length + 1) from
        by omega]

/-- On a non-empty memory a span write always completes. -/
theorem Memory.write_isSome (v : List Nat) :
    ∀ (m : Memory) (base : Nat), 0 < m.data.length →
      (Memory.write m base v).isSome = true := by
  induction v with
  | nil => intro m base _; rfl
  | cons b bs ih =>
    intro m base h
    rw [Memory.write, Memory.wrap_addr, if_neg (by omega)]
    exact ih _ (base + 1) (by simpa using h)

/-- Unfolding of `lastHit` at a span one byte longer. -/
theorem lastHit_succ (base len n j : Nat) :
    lastHit base len (n + 1) j
      = if (base + n) % len = j then some n else lastHit base len n j := by
  unfold lastHit
  rw [List.range_succ, List.filter_append, List.getLast?_append]
  by_cases h : (base + n) % len = j
  · simp [h]
  · simp [h]

/-- A `lastHit` index lies inside the span. -/
theorem lastHit_lt (base len n j i : Nat)
    (h : lastHit base len n j = some i) : i < n := by
  unfold lastHit at h
  have hmem : i ∈ (List.range n).filter
      (fun i => (base + i) % len = j) := by
    have hi : i ∈ ((List.range n).filter
        (fun i => (base + i) % len = j)).getLast? := by rw [h]; rfl
    obtain ⟨hne, heq⟩ := List.mem_getLast?_eq_getLast hi
    exact heq ▸ List.getLast_mem hne
  exact List.mem_range.mp (List.mem_filter.mp hmem).1

/-- Pointwise characterisation of a span write on a non-empty memory:
the length is preserved, and every physical slot holds the byte of the
last span position that mapped onto it (wrapping as often as needed),
or its previous content when no position did. -/
theorem Memory.write_eq (v : List Nat) :
    ∀ (m : Memory) (base : Nat), 0 < m.data.length →
      ∀ d', Memory.write m base v = some d' →
        d'.data.length = m.data.length
          ∧ ∀ j, d'.data.get? j =
              match lastHit base m.data.length v.length j with
              | some i => v.get? i
              | none => m.data.get? j := by
  induction v using List.reverseRecOn with
  | nil =>
    intro m base _ d' hw
    rw [Memory.write] at hw
    injection hw with hw
    subst hw
    exact ⟨rfl, fun j => by simp [lastHit]⟩
  | append_singleton vs x ih =>
    intro m base h d' hw
    rw [Memory.write_append] at hw
    cases hw1 : Memory.write m base vs with
    | none => rw [hw1] at hw; exact absurd hw (by simp)
    | some m' =>
      rw [hw1] at hw
      simp only [Option.some_bind] at hw
      obtain ⟨hlen, hpt⟩ := ih m base h m' hw1
      have hwa : m'.wrap_addr (base + vs.length)
          = some ((base + vs.length) % m.data.length) := by
        rw [Memory.wrap_addr, hlen, if_neg (by omega)]
      rw [Memory.write, hwa] at hw
      simp only [Option.some_bind, Memory.write, Option.some.injEq] at hw
      subst hw
      have hidx : (base + vs.length) % m.data.length < m.data.length :=
        Nat.mod_lt _ h
      constructor
      · simpa [List.length_set] using hlen
      · intro j
        simp only [List.length_append, List.length_singleton, lastHit_succ]
        by_cases hj : (base + vs.length) % m.data.length = j
        · rw [if_pos hj]
          have hjlt : j < m'.data.length := by omega
          simp [List.get?_eq_getElem?, List.getElem?_set, hj, hjlt,
            List.getElem?_concat_length]
        · rw [if_neg hj]
          have hne : (m'.data.set ((base + vs.length) % m.data.length) x).get? j
              = m'.data.get? j := by
            simp [List.get?_eq_getElem?, List.getElem?_set, hj]
          rw [hne, hpt j]
          cases hlh : lastHit base m.data.length vs.length j with
          | none => rfl
          | some i =>
            have hi : i < vs.length := lastHit_lt _ _ _ _ _ hlh
            simp [List.get?_eq_getElem?, List.getElem?_append, hi]

/-- C8: for every memory with positive length, every base address and
every span: `read(a, k)` returns exactly `k` bytes, byte `i` being the
stored byte at physical index `(a + i) mod len`; `write(a, v)` completes
and stores `v[i]` at physical index `(a + i) mod len` for each `i` (the
last colliding position winning, untouched slots keeping their bytes).
Spans of any length are legal and may wrap arbitrarily many times. -/
theorem claim_C8_memory_wraparound (m : Memory) (base k : Nat)
    (v : List Nat) (h : 0 < m.data.length) :
    Memory.read m base k
        = some ((List.range k).map fun i =>
            m.data.getD ((base + i) % m.data.length) 0)
      ∧ (Memory.write m base v).isSome = true
      ∧ ∀ d', Memory.write m base v = some d' →
          d'.data.length = m.data.length
            ∧ ∀ j, d'.data.get? j =
                match lastHit base m.data.length v.length j with
                | some i => v.get? i
                | none => m.data.get? j :=
  ⟨Memory.read_eq m h base k, Memory.write_isSome v m base h,
    Memory.write_eq v m base h⟩

/-- Witness for C8: a three-byte memory, base 4, a five-byte read that
wraps, and a two-byte write that wraps. -/
theorem claim_C8_witness :
    Memory.read ⟨[1, 2, 3]⟩ 4 5 = some [2, 3, 1, 2, 3]
      ∧ (⟨[1, 7, 8]⟩ : Memory).data.get? 0
          = match lastHit 4 3 2 0 with
            | some i => ([7, 8] : List Nat).get? i
            | none => ([1, 2, 3] : List Nat).get? 0 := by
  have h := claim_C8_memory_wraparound ⟨[1, 2, 3]⟩ 4 5 [7, 8] (by decide)
  refine ⟨by simpa using h.1, ?_⟩
  exact ((h.2.2 ⟨[1, 7, 8]⟩ (by decide)).2 0)

end RiscvEmu
